import Mathlib

/-!
Verification of the multi-field identity match classifier of the
encrypted-query-service repository (`src/script.js`, class
`CryptographicProofSystem`).  The JavaScript functions
`performMultiFieldRiskQuery`, `countLogicalFields`,
`detectInternalConflicts`, `analyzeMatches`,
`validateMultiFieldConsistency`, `detectCrossContamination` and
`dateToQuarter` are embedded as pure Lean functions below, and the
specification's claims about them are settled as theorems.

Modelling conventions:
* JavaScript optional / nullable string fields become `Option String`;
  a truthy (non-empty, present) field is `some s`, an absent, `null`,
  `undefined` or empty-string field is `none`.
* The record table (`mapleCEX_HashDatabase`, an object iterated with
  `Object.entries` in insertion order) becomes an association list
  `List (String × RiskData)`.
* `Array.prototype.sort` with comparator `b.matchStrength - a.matchStrength`
  is a stable descending sort; it is embedded as a stable insertion sort.
* The receipt objects are abstracted to the `MatchResult` tagged union of
  the specification, keeping exactly the classification-relevant payload
  (matched fields, conflicting fields, candidate count, confidence, and
  the hash key of the matched record).  Wall-clock receipt metadata
  (timestamps, query ids, signatures over timestamps) is modelled by an
  explicit timestamp parameter where a claim needs it.
-/

namespace RiskMatch

/-- Query record (`userData` in `performMultiFieldRiskQuery`): any subset of
email, phone, country, doc_type, doc_number may be populated; a `timestamp`
key may also ride along (it is excluded from logical-field counting). -/
structure UserData where
  email : Option String
  phone : Option String
  country : Option String
  doc_type : Option String
  doc_number : Option String
  timestamp : Option String
deriving DecidableEq, Repr

/-- The `user_data` sub-object of a database record. -/
structure RecordUserData where
  email : Option String
  phone : Option String
  country : Option String
  document_type : Option String
  document_number : Option String
deriving DecidableEq, Repr

/-- A record of `mapleCEX_HashDatabase`.  `user_data` is optional because the
classifier must skip (not abort on) records lacking the identity
sub-structure. -/
structure RiskData where
  user_data : Option RecordUserData
  risk_tags : List String
deriving DecidableEq, Repr

/-- `toLowerCase` of the source, embedded as a structurally recursive
character map (the repository's data is ASCII, where `Char.toLower` agrees
with JavaScript's `toLowerCase`). -/
def toLowerStr (s : String) : String := String.mk (s.data.map Char.toLower)

/-- Email comparison of `performMultiFieldRiskQuery`
(`riskData.user_data.email === userData.email`, guarded by a truthy
`userData.email`). -/
def emailFieldMatch (q : UserData) (r : RecordUserData) : Bool :=
  match q.email, r.email with
  | some qv, some rv => rv == qv
  | _, _ => false

/-- Phone comparison (strict string equality, guarded by a truthy query
phone). -/
def phoneFieldMatch (q : UserData) (r : RecordUserData) : Bool :=
  match q.phone, r.phone with
  | some qv, some rv => rv == qv
  | _, _ => false

/-- Country comparison: both values present, compared case-insensitively
(`toLowerCase` on both sides). -/
def countryFieldMatch (q : UserData) (r : RecordUserData) : Bool :=
  match q.country, r.country with
  | some qc, some rc => toLowerStr rc == toLowerStr qc
  | _, _ => false

/-- Document comparison: the query must supply both `doc_type` and
`doc_number`, the record must have both `document_type` and
`document_number`; the type is compared case-insensitively and the number
by strict string equality. -/
def documentFieldMatch (q : UserData) (r : RecordUserData) : Bool :=
  match q.doc_type, q.doc_number, r.document_type, r.document_number with
  | some qt, some qn, some rt, some rn => toLowerStr rt == toLowerStr qt && rn == qn
  | _, _, _, _ => false

/-- The `fieldMatches` array built for one record inside the candidate loop
of `performMultiFieldRiskQuery`: the list of logical field names that match,
in the fixed check order email, phone, country, document. -/
def fieldMatches (q : UserData) (r : RecordUserData) : List String :=
  (if emailFieldMatch q r then ["email"] else [])
    ++ (if phoneFieldMatch q r then ["phone"] else [])
    ++ (if countryFieldMatch q r then ["country"] else [])
    ++ (if documentFieldMatch q r then ["document"] else [])

/-- `countLogicalFields`: email, phone and country each count one; the
document pair counts one only when both components are supplied. -/
def countLogicalFields (q : UserData) : Nat :=
  (if q.email.isSome then 1 else 0)
    + (if q.phone.isSome then 1 else 0)
    + (if q.country.isSome then 1 else 0)
    + (if q.doc_type.isSome && q.doc_number.isSome then 1 else 0)

/-- The list of logical field names populated in the query, in check order.
Its length is `countLogicalFields` and every `fieldMatches` list is a
sublist of it. -/
def populatedLogicalFields (q : UserData) : List String :=
  (if q.email.isSome then ["email"] else [])
    ++ (if q.phone.isSome then ["phone"] else [])
    ++ (if q.country.isSome then ["country"] else [])
    ++ (if q.doc_type.isSome && q.doc_number.isSome then ["document"] else [])

/-- Record phone present and different from the (present) query phone
(`riskData.user_data.phone && riskData.user_data.phone !== userData.phone`). -/
def phoneMismatch (q : UserData) (r : RecordUserData) : Bool :=
  match q.phone, r.phone with
  | some qp, some rp => !(rp == qp)
  | _, _ => false

/-- Record email present and different from the (present) query email. -/
def emailMismatch (q : UserData) (r : RecordUserData) : Bool :=
  match q.email, r.email with
  | some qe, some re => !(re == qe)
  | _, _ => false

/-- `detectInternalConflicts(userData, riskData, matchedFields)`: flags a
conflict only in the three hard-coded situations of the source — email
matched but the same record's phone contradicts the query, phone matched
but the record's email contradicts the query, or document matched but the
record's email contradicts the query. -/
def detectInternalConflicts (q : UserData) (r : RecordUserData)
    (matched : List String) : Bool :=
  if 0 < matched.length then
    (q.email.isSome && q.phone.isSome && matched.contains "email"
        && phoneMismatch q r)
      || (q.phone.isSome && q.email.isSome && matched.contains "phone"
        && emailMismatch q r)
      || (q.doc_type.isSome && q.doc_number.isSome && q.email.isSome
        && matched.contains "document" && emailMismatch q r)
  else false

/-- One entry of the `potentialMatches` array. -/
structure Candidate where
  hash : String
  userData : RecordUserData
  riskTags : List String
  matchedFields : List String
  conflictingFields : List String
  matchStrength : Nat
  hasConflicts : Bool
deriving DecidableEq, Repr

/-- The candidate-generation loop of `performMultiFieldRiskQuery`: records
without a `user_data` sub-object are skipped, records with an empty
`fieldMatches` list are discarded, and every kept candidate gets
`conflictingFields := []` (the source's `fieldConflicts` array is created
empty and never written to). -/
def genCandidates (q : UserData) (table : List (String × RiskData)) :
    List Candidate :=
  table.filterMap fun p =>
    match p.2.user_data with
    | none => none
    | some ud =>
      if (fieldMatches q ud).isEmpty then none
      else some { hash := p.1, userData := ud, riskTags := p.2.risk_tags,
                  matchedFields := fieldMatches q ud, conflictingFields := [],
                  matchStrength := (fieldMatches q ud).length,
                  hasConflicts := detectInternalConflicts q ud (fieldMatches q ud) }

/-- Stable insertion step for the descending sort by `matchStrength`. -/
def insertDesc (c : Candidate) : List Candidate → List Candidate
  | [] => [c]
  | d :: ds =>
    if d.matchStrength ≤ c.matchStrength then c :: d :: ds
    else d :: insertDesc c ds

/-- `potentialMatches.sort((a, b) => b.matchStrength - a.matchStrength)`:
a stable sort, descending by match strength. -/
def sortByStrength : List Candidate → List Candidate
  | [] => []
  | c :: cs => insertDesc c (sortByStrength cs)

/-- Total match strength across all candidates
(`potentialMatches.reduce((total, match) => total + match.matchStrength, 0)`). -/
def sumStrengths (pm : List Candidate) : Nat :=
  (pm.map fun m => m.matchStrength).sum

/-- Size of the `identityFieldsByRecord` map of `detectCrossContamination`:
the number of distinct record emails among candidates that matched the
email or the document field. -/
def identityRecordCount (pm : List Candidate) : Nat :=
  ((pm.filterMap fun m =>
      if m.matchedFields.contains "email" || m.matchedFields.contains "document"
      then some m.userData.email else none).dedup).length

/-- `detectCrossContamination(potentialMatches, userData, logicalFieldCount)`,
applied to the sorted candidate list. -/
def detectCrossContamination : List Candidate → Nat → Bool
  | [], _ => false
  | strongest :: rest, lfc =>
    if rest.isEmpty then false
    else if strongest.matchStrength = lfc then false
    else if 1 < identityRecordCount (strongest :: rest) then true
    else if 2 ≤ lfc ∧ strongest.matchStrength < sumStrengths (strongest :: rest)
      then true
    else if 1 < ((strongest :: rest).filter fun m => 2 ≤ m.matchStrength).length
      then true
    else false

/-- Confidence level of a partial-match receipt. -/
inductive Confidence where
  | LOW
  | MEDIUM
deriving DecidableEq, Repr

/-- The classification outcome, the `MatchResult` tagged union of the
specification, abstracting the receipt objects to their
classification-relevant payload. -/
inductive MatchResult where
  | Unmatched (searchedFields : List String)
  | CleanMatch (hash : String) (matchedFields : List String)
  | FullMatch (hash : String) (matchedFields : List String)
  | Conflicted (matchedFields : List String) (conflictingFields : List String)
  | Ambiguous (candidateCount : Nat)
  | PartialMatch (hash : String) (matchedFields : List String)
      (confidence : Confidence)
deriving DecidableEq, Repr

/-- `searched_fields` of the no-match receipt:
`Object.keys(originalUserData).filter(key => originalUserData[key])`, the
raw keys with truthy values, in the fixed key order of the query object. -/
def searchedFields (q : UserData) : List String :=
  (if q.email.isSome then ["email"] else [])
    ++ (if q.phone.isSome then ["phone"] else [])
    ++ (if q.country.isSome then ["country"] else [])
    ++ (if q.doc_type.isSome then ["doc_type"] else [])
    ++ (if q.doc_number.isSome then ["doc_number"] else [])
    ++ (if q.timestamp.isSome then ["timestamp"] else [])

/-- `validateMultiFieldConsistency`, given the strongest candidate (head of
the sorted list), the full sorted candidate list, and the logical field
count.  Priorities: complete match (clean or flagged), internal conflict,
cross-contamination, partial match. -/
def validateMultiFieldConsistency (strongest : Candidate)
    (pm : List Candidate) (lfc : Nat) : MatchResult :=
  if strongest.matchedFields.length = lfc then
    if strongest.riskTags.isEmpty then
      .CleanMatch strongest.hash strongest.matchedFields
    else
      .FullMatch strongest.hash strongest.matchedFields
  else if strongest.hasConflicts then
    .Conflicted strongest.matchedFields strongest.conflictingFields
  else if detectCrossContamination pm lfc then
    .Ambiguous pm.length
  else
    .PartialMatch strongest.hash strongest.matchedFields .MEDIUM

/-- The decision chain of `analyzeMatches` on the sorted candidate list:
an empty candidate set yields the no-match receipt; a single-logical-field
query yields a LOW-confidence partial match on the strongest candidate; a
multi-field query goes through `validateMultiFieldConsistency`; the
unreachable fallback mirrors the source's final no-match return. -/
def analyzeSorted : List Candidate → UserData → Nat → MatchResult
  | [], q, _ => .Unmatched (searchedFields q)
  | strongest :: rest, q, lfc =>
    if lfc = 1 then .PartialMatch strongest.hash strongest.matchedFields .LOW
    else if 1 < lfc then
      validateMultiFieldConsistency strongest (strongest :: rest) lfc
    else .Unmatched (searchedFields q)

/-- `analyzeMatches(potentialMatches, userData, logicalFieldCount)`: sort
the candidates by descending match strength (stably, as
`Array.prototype.sort` does) and run the decision chain. -/
def analyzeMatches (pm : List Candidate) (q : UserData) (lfc : Nat) :
    MatchResult :=
  analyzeSorted (sortByStrength pm) q lfc

/-- `performMultiFieldRiskQuery` stripped of receipt metadata: the
classifier `classify(query, table)` of the specification. -/
def classify (q : UserData) (table : List (String × RiskData)) : MatchResult :=
  analyzeMatches (genCandidates q table) q (countLogicalFields q)

/-! `dateToQuarter(dateString)` of `CryptographicProofSystem`:
`new Date(dateString)` parses an ISO `YYYY-MM-DDTHH:MM:SSZ` string as an
absolute UTC instant, but `getFullYear()` and `getMonth()` then read the
calendar fields in the *host's local timezone*.  The embedding makes the
host timezone an explicit offset (in minutes from UTC); instants are
seconds since the Unix epoch, converted to civil dates with the standard
era-based civil-calendar algorithm. -/

/-- Value of a decimal digit character, if it is one. -/
def digitVal (c : Char) : Option Nat :=
  if '0' ≤ c ∧ c ≤ '9' then some (c.toNat - 48) else none

/-- Two-digit decimal number. -/
def digits2 (a b : Char) : Option Nat := do
  let x ← digitVal a
  let y ← digitVal b
  pure (10 * x + y)

/-- Four-digit decimal number. -/
def digits4 (a b c d : Char) : Option Nat := do
  let x ← digits2 a b
  let y ← digits2 c d
  pure (100 * x + y)

/-- Gregorian leap-year test. -/
def isLeapYear (y : Nat) : Bool :=
  (y % 4 = 0 ∧ y % 100 ≠ 0) ∨ y % 400 = 0

/-- Days in a month of the proleptic Gregorian calendar. -/
def daysInMonth (y m : Nat) : Nat :=
  if m = 2 then (if isLeapYear y then 29 else 28)
  else if m = 4 ∨ m = 6 ∨ m = 9 ∨ m = 11 then 30
  else 31

/-- Days from the Unix epoch to the given civil date (era-based
civil-calendar algorithm; negative before 1970-01-01). -/
def daysFromCivil (y m d : Int) : Int :=
  let yAdj : Int := if m ≤ 2 then y - 1 else y
  let era : Int := yAdj.fdiv 400
  let yoe : Int := yAdj - era * 400
  let mp : Int := if 2 < m then m - 3 else m + 9
  let doy : Int := (153 * mp + 2) / 5 + d - 1
  let doe : Int := yoe * 365 + yoe / 4 - yoe / 100 + doy
  era * 146097 + doe - 719468

/-- Civil (year, month) of a day count from the Unix epoch. -/
def civilFromDays (z : Int) : Int × Int :=
  let z' : Int := z + 719468
  let era : Int := z'.fdiv 146097
  let doe : Int := z' - era * 146097
  let yoe : Int := (doe - doe / 1460 + doe / 36524 - doe / 146096) / 365
  let y : Int := yoe + era * 400
  let doy : Int := doe - (365 * yoe + yoe / 4 - yoe / 100)
  let mp : Int := (5 * doy + 2) / 153
  let m : Int := if mp < 10 then mp + 3 else mp - 9
  (if m ≤ 2 then y + 1 else y, m)

/-- Parse a canonical `YYYY-MM-DDTHH:MM:SSZ` string (the format used by the
repository's data and tests) to seconds since the Unix epoch, validating
the component ranges as `Date.parse` does for ISO strings. -/
def parseISO (s : String) : Option Int :=
  match s.data with
  | [y1, y2, y3, y4, h1, mo1, mo2, h2, d1, d2, t, hh1, hh2, c1, mi1, mi2,
      c2, s1, s2, z] =>
    if h1 = '-' ∧ h2 = '-' ∧ t = 'T' ∧ c1 = ':' ∧ c2 = ':' ∧ z = 'Z' then do
      let y ← digits4 y1 y2 y3 y4
      let mo ← digits2 mo1 mo2
      let d ← digits2 d1 d2
      let hh ← digits2 hh1 hh2
      let mi ← digits2 mi1 mi2
      let ss ← digits2 s1 s2
      if 1 ≤ mo ∧ mo ≤ 12 ∧ 1 ≤ d ∧ d ≤ daysInMonth y mo
          ∧ hh ≤ 23 ∧ mi ≤ 59 ∧ ss ≤ 59 then
        pure (daysFromCivil y mo d * 86400 + hh * 3600 + mi * 60 + ss)
      else none
    else none
  | _ => none

/-- Local calendar (year, month) of an epoch instant in a host timezone
given as an offset in minutes from UTC — the values `getFullYear()` and
`getMonth() + 1` produce. -/
def localYM (tzOffsetMinutes t : Int) : Int × Int :=
  civilFromDays ((t + tzOffsetMinutes * 60).fdiv 86400)

/-- The month-to-quarter conditional chain of `dateToQuarter`. -/
def quarterOfMonth (m : Int) : String :=
  if m ≤ 3 then "Q1" else if m ≤ 6 then "Q2" else if m ≤ 9 then "Q3" else "Q4"

/-- `dateToQuarter(dateString)` run on a host whose timezone offset from
UTC is `tzOffsetMinutes`: parse the string as an absolute instant, read the
local year and month, and produce the label `"Qn YYYY"`. -/
def dateToQuarter (tzOffsetMinutes : Int) (s : String) : Option String :=
  (parseISO s).map fun t =>
    quarterOfMonth (localYM tzOffsetMinutes t).2
      ++ " " ++ toString (localYM tzOffsetMinutes t).1

/-- The conflicting-fields list carried by a `Conflicted` result (empty for
every other variant). -/
def resultConflictingFields : MatchResult → List String
  | .Conflicted _ cf => cf
  | _ => []

/-- Replace the query's `timestamp` key, leaving all identity fields
untouched. -/
def setTimestamp (q : UserData) (ts : Option String) : UserData :=
  ⟨q.email, q.phone, q.country, q.doc_type, q.doc_number, ts⟩

/-! Helper lemmas about the embedded definitions. -/

theorem emailFieldMatch_iff (q : UserData) (r : RecordUserData) :
    emailFieldMatch q r = true ↔ ∃ v, q.email = some v ∧ r.email = some v := by
  cases hq : q.email <;> cases hr : r.email <;>
    simp [emailFieldMatch, hq, hr, beq_iff_eq]

theorem phoneFieldMatch_iff (q : UserData) (r : RecordUserData) :
    phoneFieldMatch q r = true ↔ ∃ v, q.phone = some v ∧ r.phone = some v := by
  cases hq : q.phone <;> cases hr : r.phone <;>
    simp [phoneFieldMatch, hq, hr, beq_iff_eq]

theorem countryFieldMatch_iff (q : UserData) (r : RecordUserData) :
    countryFieldMatch q r = true ↔
      ∃ qc rc, q.country = some qc ∧ r.country = some rc
        ∧ toLowerStr rc = toLowerStr qc := by
  cases hq : q.country <;> cases hr : r.country <;>
    simp [countryFieldMatch, hq, hr]

theorem documentFieldMatch_iff (q : UserData) (r : RecordUserData) :
    documentFieldMatch q r = true ↔
      ∃ qt qn rt rn, q.doc_type = some qt ∧ q.doc_number = some qn
        ∧ r.document_type = some rt ∧ r.document_number = some rn
        ∧ toLowerStr rt = toLowerStr qt ∧ rn = qn := by
  cases hqt : q.doc_type <;> cases hqn : q.doc_number <;>
    cases hrt : r.document_type <;> cases hrn : r.document_number <;>
    simp [documentFieldMatch, hqt, hqn, hrt, hrn, Bool.and_eq_true, beq_iff_eq]

theorem phoneMismatch_iff (q : UserData) (r : RecordUserData) :
    phoneMismatch q r = true ↔
      ∃ qp rp, q.phone = some qp ∧ r.phone = some rp ∧ rp ≠ qp := by
  cases hq : q.phone <;> cases hr : r.phone <;>
    simp [phoneMismatch, hq, hr]

theorem emailMismatch_iff (q : UserData) (r : RecordUserData) :
    emailMismatch q r = true ↔
      ∃ qv rv, q.email = some qv ∧ r.email = some rv ∧ rv ≠ qv := by
  cases hq : q.email <;> cases hr : r.email <;>
    simp [emailMismatch, hq, hr]

theorem emailFieldMatch_isSome (q : UserData) (r : RecordUserData)
    (h : emailFieldMatch q r = true) : q.email.isSome = true := by
  obtain ⟨v, hv, -⟩ := (emailFieldMatch_iff q r).mp h
  simp [hv]

theorem phoneFieldMatch_isSome (q : UserData) (r : RecordUserData)
    (h : phoneFieldMatch q r = true) : q.phone.isSome = true := by
  obtain ⟨v, hv, -⟩ := (phoneFieldMatch_iff q r).mp h
  simp [hv]

theorem countryFieldMatch_isSome (q : UserData) (r : RecordUserData)
    (h : countryFieldMatch q r = true) : q.country.isSome = true := by
  obtain ⟨qc, rc, hv, -⟩ := (countryFieldMatch_iff q r).mp h
  simp [hv]

theorem documentFieldMatch_isSome (q : UserData) (r : RecordUserData)
    (h : documentFieldMatch q r = true) :
    (q.doc_type.isSome && q.doc_number.isSome) = true := by
  obtain ⟨qt, qn, rt, rn, ht, hn, -⟩ := (documentFieldMatch_iff q r).mp h
  simp [ht, hn]

theorem mem_if_singleton (b : Bool) (x f : String) :
    (f ∈ if b then [x] else []) ↔ b = true ∧ f = x := by
  cases b <;> simp

theorem contains_mem_iff (l : List String) (x : String) :
    l.contains x = true ↔ x ∈ l := by
  simp [List.contains, List.elem_iff]

theorem countLogicalFields_eq (q : UserData) :
    countLogicalFields q = (populatedLogicalFields q).length := by
  cases he : q.email.isSome <;> cases hp : q.phone.isSome <;>
    cases hc : q.country.isSome <;>
    cases hd : (q.doc_type.isSome && q.doc_number.isSome) <;>
    simp [countLogicalFields, populatedLogicalFields, he, hp, hc, hd]

theorem if_singleton_sublist {b₁ b₂ : Bool} (h : b₁ = true → b₂ = true)
    (l : List String) :
    List.Sublist (if b₁ then l else []) (if b₂ then l else []) := by
  cases b₁ <;> cases b₂ <;> simp_all

theorem fieldMatches_sublist (q : UserData) (r : RecordUserData) :
    List.Sublist (fieldMatches q r) (populatedLogicalFields q) := by
  apply List.Sublist.append
  apply List.Sublist.append
  apply List.Sublist.append
  · exact if_singleton_sublist (emailFieldMatch_isSome q r) _
  · exact if_singleton_sublist (phoneFieldMatch_isSome q r) _
  · exact if_singleton_sublist (countryFieldMatch_isSome q r) _
  · exact if_singleton_sublist (documentFieldMatch_isSome q r) _

theorem fieldMatches_length_le (q : UserData) (r : RecordUserData) :
    (fieldMatches q r).length ≤ countLogicalFields q := by
  rw [countLogicalFields_eq]
  exact (fieldMatches_sublist q r).length_le

theorem mem_fieldMatches (q : UserData) (r : RecordUserData) (f : String) :
    f ∈ fieldMatches q r ↔
      (emailFieldMatch q r = true ∧ f = "email")
      ∨ (phoneFieldMatch q r = true ∧ f = "phone")
      ∨ (countryFieldMatch q r = true ∧ f = "country")
      ∨ (documentFieldMatch q r = true ∧ f = "document") := by
  simp [fieldMatches, List.mem_append, mem_if_singleton]

theorem insertDesc_perm (c : Candidate) (l : List Candidate) :
    List.Perm (insertDesc c l) (c :: l) := by
  induction l with
  | nil => exact List.Perm.refl _
  | cons d ds ih =>
    unfold insertDesc
    by_cases h : d.matchStrength ≤ c.matchStrength
    · rw [if_pos h]
    · rw [if_neg h]
      exact (ih.cons d).trans (List.Perm.swap c d ds)

theorem sortByStrength_perm (l : List Candidate) :
    List.Perm (sortByStrength l) l := by
  induction l with
  | nil => exact List.Perm.refl _
  | cons c cs ih => exact (insertDesc_perm c _).trans (ih.cons c)

/-- The descending-strength order maintained by the sort. -/
def geStrength (a b : Candidate) : Prop := b.matchStrength ≤ a.matchStrength

theorem insertDesc_pairwise (c : Candidate) (l : List Candidate)
    (h : l.Pairwise geStrength) : (insertDesc c l).Pairwise geStrength := by
  induction l with
  | nil => simp [insertDesc, List.pairwise_cons]
  | cons d ds ih =>
    rw [List.pairwise_cons] at h
    unfold insertDesc
    by_cases hcd : d.matchStrength ≤ c.matchStrength
    · rw [if_pos hcd, List.pairwise_cons]
      constructor
      · intro x hx
        rcases List.mem_cons.mp hx with hx | hx
        · subst hx; exact hcd
        · exact le_trans (h.1 x hx) hcd
      · rw [List.pairwise_cons]
        exact h
    · rw [if_neg hcd, List.pairwise_cons]
      constructor
      · intro x hx
        rcases List.mem_cons.mp ((insertDesc_perm c ds).mem_iff.mp hx) with hx | hx
        · subst hx
          exact le_of_lt (lt_of_not_le hcd)
        · exact h.1 x hx
      · exact ih h.2

theorem sortByStrength_pairwise (l : List Candidate) :
    (sortByStrength l).Pairwise geStrength := by
  induction l with
  | nil => simp [sortByStrength]
  | cons c cs ih => exact insertDesc_pairwise c _ ih

theorem sorted_head_max {l : List Candidate} {s : Candidate}
    {rest : List Candidate} (h : sortByStrength l = s :: rest) :
    ∀ x ∈ l, x.matchStrength ≤ s.matchStrength := by
  intro x hx
  have hmem : x ∈ s :: rest := by
    rw [← h]
    exact (sortByStrength_perm l).symm.subset hx
  rcases List.mem_cons.mp hmem with hx' | hx'
  · subst hx'; exact le_refl _
  · have hp := sortByStrength_pairwise l
    rw [h, List.pairwise_cons] at hp
    exact hp.1 x hx'

theorem sorted_head_mem {l : List Candidate} {s : Candidate}
    {rest : List Candidate} (h : sortByStrength l = s :: rest) : s ∈ l := by
  have : s ∈ sortByStrength l := by rw [h]; exact List.mem_cons_self s rest
  exact (sortByStrength_perm l).subset this

/-- What being a generated candidate means: every candidate of
`genCandidates` carries the `fieldMatches` of its record, its length as
strength, an empty conflicting-fields list, and the conflict flag computed
by `detectInternalConflicts`. -/
theorem mem_genCandidates {q : UserData} {t : List (String × RiskData)}
    {c : Candidate} (h : c ∈ genCandidates q t) :
    c.matchedFields = fieldMatches q c.userData
    ∧ c.matchStrength = c.matchedFields.length
    ∧ c.conflictingFields = []
    ∧ c.hasConflicts = detectInternalConflicts q c.userData c.matchedFields
    ∧ c.matchedFields ≠ [] := by
  unfold genCandidates at h
  rw [List.mem_filterMap] at h
  obtain ⟨p, hp, hf⟩ := h
  split at hf
  · exact absurd hf (by simp)
  · rename_i ud hud
    split at hf
    · exact absurd hf (by simp)
    · rename_i hne
      injection hf with hf
      subst hf
      refine ⟨rfl, rfl, rfl, rfl, ?_⟩
      intro hnil
      rw [List.isEmpty_iff] at hne
      exact hne hnil

theorem candidate_strength_le {q : UserData} {t : List (String × RiskData)}
    {c : Candidate} (h : c ∈ genCandidates q t) :
    c.matchStrength ≤ countLogicalFields q := by
  obtain ⟨hm, hs, -, -, -⟩ := mem_genCandidates h
  rw [hs, hm]
  exact fieldMatches_length_le q c.userData

theorem classify_eq_validate {q : UserData} {t : List (String × RiskData)}
    {s : Candidate} {rest : List Candidate}
    (hsort : sortByStrength (genCandidates q t) = s :: rest)
    (hlfc : 2 ≤ countLogicalFields q) :
    classify q t
      = validateMultiFieldConsistency s (s :: rest) (countLogicalFields q) := by
  unfold classify analyzeMatches
  rw [hsort]
  simp only [analyzeSorted]
  rw [if_neg (by omega), if_pos (by omega)]

/-! Concrete queries, records and tables used by counterexamples and
witnesses.  Each claim uses its own instances. -/

/-- C1 counterexample query: a single populated logical field. -/
def q1c : UserData := ⟨some "solo@x.com", none, none, none, none, none⟩

/-- C1 counterexample table: one clean record that fully matches `q1c`. -/
def t1c : List (String × RiskData) :=
  [("h1", ⟨some ⟨some "solo@x.com", none, none, none, none⟩, []⟩)]

/-- C1 witness query: email and phone populated. -/
def q1w : UserData := ⟨some "a@x.com", some "111", none, none, none, none⟩

/-- C1 witness table: one flagged record matching both fields. -/
def t1w : List (String × RiskData) :=
  [("h1", ⟨some ⟨some "a@x.com", some "111", none, none, none⟩, ["Tag"]⟩)]

/-- C1 witness candidate: the unique full-strength candidate of
`genCandidates q1w t1w`. -/
def c1w : Candidate :=
  ⟨"h1", ⟨some "a@x.com", some "111", none, none, none⟩, ["Tag"],
    ["email", "phone"], [], 2, false⟩

/-- C2 failing input: query email matches the record, query phone is
populated and differs from the record's phone. -/
def q2c : UserData :=
  ⟨some "alex.chen@gmail.com", some "+1-555-9999", none, none, none, none⟩

/-- C2 failing-input table: the alex.chen record of the demo database. -/
def t2c : List (String × RiskData) :=
  [("4a283f357be6639bcf06457b59bd6754e06e3c1d1b917b0eb76a7f27aa32a289",
    ⟨some ⟨some "alex.chen@gmail.com", some "+1-555-0123",
      some "United States", some "Passport", some "US123456789"⟩,
      ["Velocity_Withdrawals", "Suspicious_Patterns"]⟩)]

/-- C3 counterexample query: email plus a country that will disagree. -/
def q3c : UserData :=
  ⟨some "a@b.c", none, some "United States", none, none, none⟩

/-- C3 counterexample record: same email, different populated country. -/
def r3c : RecordUserData := ⟨some "a@b.c", none, some "Canada", none, none⟩

/-- C4 counterexample query: email and phone populated. -/
def q4c : UserData := ⟨some "e@x.com", some "111", none, none, none, none⟩

/-- C4 counterexample table: the email matches only the first record (whose
populated phone differs), the phone matches only the second record. -/
def t4c : List (String × RiskData) :=
  [("h1", ⟨some ⟨some "e@x.com", some "222", none, none, none⟩, []⟩),
   ("h2", ⟨some ⟨some "f@x.com", some "111", none, none, none⟩, []⟩)]

/-- C4 witness query: email and phone populated. -/
def q4w : UserData := ⟨some "e@x.com", some "111", none, none, none, none⟩

/-- C4 witness table: the email matches only the first record (phone
absent there, so no internal conflict), the phone matches only the
second. -/
def t4w : List (String × RiskData) :=
  [("h1", ⟨some ⟨some "e@x.com", none, none, none, none⟩, []⟩),
   ("h2", ⟨some ⟨none, some "111", none, none, none⟩, []⟩)]

/-- C4 witness candidates, in sorted order. -/
def c4w1 : Candidate :=
  ⟨"h1", ⟨some "e@x.com", none, none, none, none⟩, [], ["email"], [], 1, false⟩

/-- Second C4 witness candidate. -/
def c4w2 : Candidate :=
  ⟨"h2", ⟨none, some "111", none, none, none⟩, [], ["phone"], [], 1, false⟩

/-- C5 witness query for the single-field part. -/
def q5a : UserData := ⟨some "one@x.com", none, none, none, none, none⟩

/-- C5 witness table for the single-field part. -/
def t5a : List (String × RiskData) :=
  [("h1", ⟨some ⟨some "one@x.com", some "000", none, none, none⟩, ["T"]⟩)]

/-- C5 single-field witness candidate. -/
def c5a : Candidate :=
  ⟨"h1", ⟨some "one@x.com", some "000", none, none, none⟩, ["T"],
    ["email"], [], 1, false⟩

/-- C5 witness query for the multi-field partial part. -/
def q5b : UserData := ⟨some "two@x.com", some "333", none, none, none, none⟩

/-- C5 witness table for the multi-field partial part: one record matching
only the email, with no phone stored (so no conflict). -/
def t5b : List (String × RiskData) :=
  [("h2", ⟨some ⟨some "two@x.com", none, none, none, none⟩, ["T"]⟩)]

/-- C5 multi-field witness candidate. -/
def c5b : Candidate :=
  ⟨"h2", ⟨some "two@x.com", none, none, none, none⟩, ["T"],
    ["email"], [], 1, false⟩

/-- C7 witness query: only `doc_number` populated — zero logical fields
(the document pair needs both components). -/
def q7w : UserData := ⟨none, none, none, none, some "N42", none⟩

/-- C7 witness table: contains an entry without the identity
sub-structure. -/
def t7w : List (String × RiskData) :=
  [("bad", ⟨none, ["X"]⟩),
   ("h1", ⟨some ⟨some "a@x.com", none, none, none, none⟩, []⟩)]

/-- C8 counterexample query: document pair with a lower-case type. -/
def q8c : UserData := ⟨none, none, none, some "passport", some "N1", none⟩

/-- C8 counterexample record: same document number, type differing only in
case. -/
def r8c : RecordUserData := ⟨none, none, none, some "Passport", some "N1"⟩

/-- C10 witness query and table: an input that produces a `Conflicted`
result. -/
def q10w : UserData := ⟨some "u@x.com", some "777", none, none, none, none⟩

/-- C10 witness table. -/
def t10w : List (String × RiskData) :=
  [("h1", ⟨some ⟨some "u@x.com", some "888", none, none, none⟩, ["F"]⟩)]

theorem fieldMatches_nil_of_zero (q : UserData)
    (h : countLogicalFields q = 0) (r : RecordUserData) :
    fieldMatches q r = [] := by
  cases hqe : q.email <;> cases hqp : q.phone <;> cases hqc : q.country <;>
    cases hqt : q.doc_type <;> cases hqn : q.doc_number <;>
    simp [countLogicalFields, hqe, hqp, hqc, hqt, hqn] at h <;>
    simp [fieldMatches, emailFieldMatch, phoneFieldMatch, countryFieldMatch,
      documentFieldMatch, hqe, hqp, hqc, hqt, hqn]

theorem genCandidates_nil_of_zero (q : UserData)
    (h : countLogicalFields q = 0) (t : List (String × RiskData)) :
    genCandidates q t = [] := by
  unfold genCandidates
  rw [List.filterMap_eq_nil_iff]
  intro p hp
  cases hud : p.2.user_data with
  | none => simp [hud]
  | some ud => simp [hud, fieldMatches_nil_of_zero q h ud]

theorem genCandidates_skip_malformed (q : UserData)
    (t : List (String × RiskData)) :
    genCandidates q t
      = genCandidates q (t.filter fun p => p.2.user_data.isSome) := by
  induction t with
  | nil => rfl
  | cons p ps ih =>
    unfold genCandidates at ih ⊢
    rw [List.filter_cons]
    cases hud : p.2.user_data with
    | none =>
      simp [List.filterMap_cons, hud] at ih ⊢
      exact ih
    | some ud =>
      simp [List.filterMap_cons, hud] at ih ⊢
      rw [ih]

/-! The claims. -/

/-- C1 (amended): for a query with at least two logical fields, if exactly
one candidate's matched-field count equals the number of logical fields
present in the query, `classify` returns a full match on that record —
`CleanMatch` when its risk-tag set is empty, `FullMatch` otherwise — and
its matched fields are exactly the populated logical fields of the query.
(The original claim, quantified over every query, fails for
single-logical-field queries, which the code short-circuits to
`PartialMatch`.) -/
theorem claim1_full_match_unique (q : UserData) (t : List (String × RiskData))
    (c : Candidate)
    (hlfc : 2 ≤ countLogicalFields q)
    (hc : c ∈ genCandidates q t)
    (hfull : c.matchStrength = countLogicalFields q)
    (huniq : (genCandidates q t).countP
        (fun x => x.matchStrength == countLogicalFields q) = 1) :
    classify q t
      = (if c.riskTags.isEmpty then
          MatchResult.CleanMatch c.hash c.matchedFields
        else MatchResult.FullMatch c.hash c.matchedFields)
    ∧ c.matchedFields = populatedLogicalFields q := by
  have hne : genCandidates q t ≠ [] := by
    intro h0
    rw [h0] at hc
    exact absurd hc (List.not_mem_nil c)
  obtain ⟨s, rest, hsort⟩ :
      ∃ s rest, sortByStrength (genCandidates q t) = s :: rest := by
    cases hs : sortByStrength (genCandidates q t) with
    | nil =>
      have hperm := sortByStrength_perm (genCandidates q t)
      rw [hs] at hperm
      exact absurd hperm.symm.eq_nil hne
    | cons s rest => exact ⟨s, rest, rfl⟩
  have hs_mem : s ∈ genCandidates q t := sorted_head_mem hsort
  have hs_le : s.matchStrength ≤ countLogicalFields q :=
    candidate_strength_le hs_mem
  have hc_le : c.matchStrength ≤ s.matchStrength := sorted_head_max hsort c hc
  have hs_full : s.matchStrength = countLogicalFields q :=
    le_antisymm hs_le (hfull ▸ hc_le)
  have hsc : s = c := by
    have hfil : ((genCandidates q t).filter
        (fun x => x.matchStrength == countLogicalFields q)).length = 1 := by
      rw [← List.countP_eq_length_filter]
      exact huniq
    obtain ⟨a, ha⟩ := List.length_eq_one.mp hfil
    have h1 : s ∈ (genCandidates q t).filter
        (fun x => x.matchStrength == countLogicalFields q) :=
      List.mem_filter.mpr ⟨hs_mem, by simp [hs_full]⟩
    have h2 : c ∈ (genCandidates q t).filter
        (fun x => x.matchStrength == countLogicalFields q) :=
      List.mem_filter.mpr ⟨hc, by simp [hfull]⟩
    rw [ha, List.mem_singleton] at h1 h2
    rw [h1, h2]
  rw [hsc] at hsort
  obtain ⟨hm, hlen, -, -, -⟩ := mem_genCandidates hc
  constructor
  · rw [classify_eq_validate hsort hlfc]
    unfold validateMultiFieldConsistency
    rw [if_pos (hlen.symm.trans hfull)]
  · have hsub := fieldMatches_sublist q c.userData
    rw [← hm] at hsub
    apply hsub.eq_of_length
    rw [← countLogicalFields_eq]
    exact hlen.symm.trans hfull

/-- C1 witness: a two-field query fully matching exactly one flagged
record yields `FullMatch` covering both populated fields. -/
theorem claim1_full_match_unique_witness :
    classify q1w t1w = MatchResult.FullMatch "h1" ["email", "phone"]
    ∧ (["email", "phone"] : List String) = populatedLogicalFields q1w :=
  claim1_full_match_unique q1w t1w c1w (by decide) (by decide) (by decide)
    (by decide)

/-- C1 counterexample: a single-field query fully matching exactly one
clean record satisfies the claim's hypothesis (exactly one candidate with
matched-field count equal to the query's logical field count), but
`classify` returns `PartialMatch` with LOW confidence, not the `CleanMatch`
the claim requires. -/
theorem claim1_counterexample :
    (genCandidates q1c t1c).countP
        (fun x => x.matchStrength == countLogicalFields q1c) = 1
    ∧ classify q1c t1c = MatchResult.PartialMatch "h1" ["email"] Confidence.LOW
    ∧ classify q1c t1c ≠ MatchResult.CleanMatch "h1" ["email"] := by decide

/-- C2 (code bug evaluation): on a query whose email matches the record
while the query's phone is populated and differs from the record's phone,
`classify` does return `Conflicted` with `email` among the matched fields,
but the conflicting-fields list is empty — `phone` is not in it, because
the source never populates its `fieldConflicts` array. -/
theorem claim2_conflicted_fields_empty :
    classify q2c t2c = MatchResult.Conflicted ["email"] []
    ∧ "phone" ∉ resultConflictingFields (classify q2c t2c) := by decide

/-- C3 (amended): for a candidate record (its matched fields being
`fieldMatches`), the classifier flags an internal conflict exactly in the
source's three hard-coded situations: email matched while the query's
phone is populated and the record's populated phone differs; phone matched
while the query's email is populated and the record's populated email
differs; or document matched while the query's email is populated and the
record's populated email differs.  A disagreeing country — or any other
combination — never sets the flag. -/
theorem claim3_internal_conflict_conditions (q : UserData)
    (r : RecordUserData) :
    detectInternalConflicts q r (fieldMatches q r) = true ↔
      (q.email.isSome = true ∧ q.phone.isSome = true
          ∧ "email" ∈ fieldMatches q r
          ∧ ∃ qp rp, q.phone = some qp ∧ r.phone = some rp ∧ rp ≠ qp)
      ∨ (q.phone.isSome = true ∧ q.email.isSome = true
          ∧ "phone" ∈ fieldMatches q r
          ∧ ∃ qv rv, q.email = some qv ∧ r.email = some rv ∧ rv ≠ qv)
      ∨ (q.doc_type.isSome = true ∧ q.doc_number.isSome = true
          ∧ q.email.isSome = true ∧ "document" ∈ fieldMatches q r
          ∧ ∃ qv rv, q.email = some qv ∧ r.email = some rv ∧ rv ≠ qv) := by
  by_cases h : 0 < (fieldMatches q r).length
  · unfold detectInternalConflicts
    rw [if_pos h]
    simp only [Bool.or_eq_true, Bool.and_eq_true, contains_mem_iff,
      phoneMismatch_iff, emailMismatch_iff, and_assoc, or_assoc]
  · have hnil : fieldMatches q r = [] := by
      cases hfm : fieldMatches q r with
      | nil => rfl
      | cons a l =>
        rw [hfm] at h
        exact absurd (by simp) h
    unfold detectInternalConflicts
    rw [if_neg h]
    simp [hnil]

/-- C3 counterexample: the query's email matches the record while the
record's populated country disagrees with the query's populated country —
a populated different queried logical field that disagrees — yet the code
flags no internal conflict. -/
theorem claim3_counterexample :
    fieldMatches q3c r3c = ["email"]
    ∧ q3c.country = some "United States"
    ∧ r3c.country = some "Canada"
    ∧ r3c.country ≠ q3c.country
    ∧ detectInternalConflicts q3c r3c (fieldMatches q3c r3c) = false := by
  decide

/-- C4 (amended): for a query with at least two logical fields, when the
top-scoring candidate (ties broken by insertion order) is not a full match
and carries no internal-conflict flag, and the matched-field counts summed
across all candidates exceed the top candidate's count, `classify` returns
`Ambiguous` carrying the candidate count.  (The original claim fails
without the conflict guard: `Conflicted` takes priority over
`Ambiguous`.) -/
theorem claim4_cross_record_ambiguous (q : UserData)
    (t : List (String × RiskData)) (s : Candidate) (rest : List Candidate)
    (hlfc : 2 ≤ countLogicalFields q)
    (hsort : sortByStrength (genCandidates q t) = s :: rest)
    (hnotfull : s.matchStrength < countLogicalFields q)
    (hnoconf : s.hasConflicts = false)
    (hsum : s.matchStrength < sumStrengths (genCandidates q t)) :
    classify q t = MatchResult.Ambiguous (genCandidates q t).length := by
  have hperm := sortByStrength_perm (genCandidates q t)
  rw [hsort] at hperm
  have hsum' : sumStrengths (s :: rest) = sumStrengths (genCandidates q t) := by
    unfold sumStrengths
    exact (hperm.map fun m => m.matchStrength).sum_eq
  have hrest : rest ≠ [] := by
    intro h0
    subst h0
    rw [← hsum'] at hsum
    unfold sumStrengths at hsum
    simp at hsum
  obtain ⟨-, hlen, -, -, -⟩ := mem_genCandidates (sorted_head_mem hsort)
  rw [classify_eq_validate hsort hlfc]
  unfold validateMultiFieldConsistency
  rw [if_neg (by omega : ¬s.matchedFields.length = countLogicalFields q)]
  rw [if_neg (by simp [hnoconf])]
  have hcross :
      detectCrossContamination (s :: rest) (countLogicalFields q) = true := by
    simp only [detectCrossContamination]
    have h1 : ¬rest.isEmpty = true := fun hh => hrest (List.isEmpty_iff.mp hh)
    rw [if_neg h1]
    rw [if_neg (by omega : ¬s.matchStrength = countLogicalFields q)]
    by_cases h2 : 1 < identityRecordCount (s :: rest)
    · rw [if_pos h2]
    · rw [if_neg h2, if_pos ⟨hlfc, by omega⟩]
  rw [if_pos hcross]
  rw [hperm.length_eq]

/-- C4 witness: email and phone individually matching two different
records, with no internal conflict on the top candidate, yields
`Ambiguous` with candidate count 2. -/
theorem claim4_cross_record_ambiguous_witness :
    classify q4w t4w = MatchResult.Ambiguous 2 :=
  claim4_cross_record_ambiguous q4w t4w c4w1 [c4w2] (by decide) (by decide)
    (by decide) (by decide) (by decide)

/-- C4 counterexample: two fields individually match two different records
and no record matches both (the claim's premise), but because the
top-scoring candidate has a populated differing phone, the code returns
`Conflicted`, not `Ambiguous`. -/
theorem claim4_counterexample :
    (genCandidates q4c t4c).map (fun c => c.matchedFields)
        = [["email"], ["phone"]]
    ∧ classify q4c t4c = MatchResult.Conflicted ["email"] []
    ∧ classify q4c t4c ≠ MatchResult.Ambiguous 2 := by decide

/-- C5: a single-logical-field query with at least one candidate yields a
`PartialMatch` with LOW confidence on the top candidate; a multi-field
query whose top candidate covers only a strict subset of the query's
logical fields, with no internal-conflict flag and no cross-contamination,
yields a `PartialMatch` with MEDIUM confidence. -/
theorem claim5_partial_match_confidence :
    (∀ (q : UserData) (t : List (String × RiskData)) (s : Candidate)
        (rest : List Candidate),
      countLogicalFields q = 1 →
      sortByStrength (genCandidates q t) = s :: rest →
      classify q t
        = MatchResult.PartialMatch s.hash s.matchedFields Confidence.LOW)
    ∧ (∀ (q : UserData) (t : List (String × RiskData)) (s : Candidate)
        (rest : List Candidate),
      2 ≤ countLogicalFields q →
      sortByStrength (genCandidates q t) = s :: rest →
      s.matchStrength < countLogicalFields q →
      s.hasConflicts = false →
      detectCrossContamination (s :: rest) (countLogicalFields q) = false →
      classify q t
        = MatchResult.PartialMatch s.hash s.matchedFields Confidence.MEDIUM) := by
  constructor
  · intro q t s rest hlfc hsort
    unfold classify analyzeMatches
    rw [hsort]
    simp only [analyzeSorted]
    rw [if_pos hlfc]
  · intro q t s rest hlfc hsort hlt hconf hcross
    obtain ⟨-, hlen, -, -, -⟩ := mem_genCandidates (sorted_head_mem hsort)
    rw [classify_eq_validate hsort hlfc]
    unfold validateMultiFieldConsistency
    rw [if_neg (by omega : ¬s.matchedFields.length = countLogicalFields q)]
    rw [if_neg (by simp [hconf])]
    rw [if_neg (by simp [hcross])]

/-- C5 witness: a one-field query matching one record yields LOW-confidence
`PartialMatch`; a two-field query whose single candidate covers only the
email (no conflict, no cross-contamination) yields MEDIUM confidence. -/
theorem claim5_partial_match_confidence_witness :
    classify q5a t5a = MatchResult.PartialMatch "h1" ["email"] Confidence.LOW
    ∧ classify q5b t5b
      = MatchResult.PartialMatch "h2" ["email"] Confidence.MEDIUM :=
  ⟨claim5_partial_match_confidence.1 q5a t5a c5a [] (by decide) (by decide),
   claim5_partial_match_confidence.2 q5b t5b c5b [] (by decide) (by decide)
     (by decide) (by decide) (by decide)⟩

/-- C6 (amended): `dateToQuarter` maps months 1-3 to Q1, 4-6 to Q2, 7-9 to
Q3 and 10-12 to Q4 and labels the result `"Qn YYYY"`, but it reads the
year and month of the parsed instant in the *host's local timezone*
(`getFullYear`/`getMonth`), not in UTC; on a UTC host (offset 0) the four
quoted example strings produce the quoted labels. -/
theorem claim6_quarter_derivation :
    (∀ (tz : Int) (s : String),
        dateToQuarter tz s = (parseISO s).map fun t =>
          quarterOfMonth (localYM tz t).2 ++ " "
            ++ toString (localYM tz t).1)
    ∧ (∀ m : Int,
        (1 ≤ m ∧ m ≤ 3 → quarterOfMonth m = "Q1")
        ∧ (4 ≤ m ∧ m ≤ 6 → quarterOfMonth m = "Q2")
        ∧ (7 ≤ m ∧ m ≤ 9 → quarterOfMonth m = "Q3")
        ∧ (10 ≤ m ∧ m ≤ 12 → quarterOfMonth m = "Q4"))
    ∧ dateToQuarter 0 "2023-10-05T12:30:00Z" = some "Q4 2023"
    ∧ dateToQuarter 0 "2023-11-22T09:12:00Z" = some "Q4 2023"
    ∧ dateToQuarter 0 "2023-12-10T16:45:00Z" = some "Q4 2023"
    ∧ dateToQuarter 0 "2024-08-15T10:30:00Z" = some "Q3 2024" := by
  refine ⟨fun tz s => rfl, fun m => ⟨?_, ?_, ?_, ?_⟩, by decide, by decide,
    by decide, by decide⟩
  · intro hm
    unfold quarterOfMonth
    rw [if_pos hm.2]
  · intro hm
    unfold quarterOfMonth
    rw [if_neg (by omega), if_pos hm.2]
  · intro hm
    unfold quarterOfMonth
    rw [if_neg (by omega), if_neg (by omega), if_pos hm.2]
  · intro hm
    unfold quarterOfMonth
    rw [if_neg (by omega), if_neg (by omega), if_neg (by omega)]

/-- C6 witness: the month-to-quarter mapping at concrete months. -/
theorem claim6_quarter_derivation_witness :
    quarterOfMonth 2 = "Q1" ∧ quarterOfMonth 5 = "Q2"
    ∧ quarterOfMonth 8 = "Q3" ∧ quarterOfMonth 11 = "Q4" :=
  ⟨(claim6_quarter_derivation.2.1 2).1 ⟨by decide, by decide⟩,
   ((claim6_quarter_derivation.2.1 5).2.1) ⟨by decide, by decide⟩,
   ((claim6_quarter_derivation.2.1 8).2.2.1) ⟨by decide, by decide⟩,
   ((claim6_quarter_derivation.2.1 11).2.2.2) ⟨by decide, by decide⟩⟩

/-- C6 counterexample: the code does not read the UTC year and month — on
a host one hour west of UTC the instant `2024-01-01T00:30:00Z` is labelled
`"Q4 2023"`, while reading it as a UTC instant gives `"Q1 2024"`. -/
theorem claim6_counterexample :
    dateToQuarter (-60) "2024-01-01T00:30:00Z" = some "Q4 2023"
    ∧ dateToQuarter 0 "2024-01-01T00:30:00Z" = some "Q1 2024"
    ∧ dateToQuarter (-60) "2024-01-01T00:30:00Z"
      ≠ dateToQuarter 0 "2024-01-01T00:30:00Z" := by decide

/-- C7: a query with zero populated logical fields classifies as
`Unmatched`, reporting the searched raw keys; and table entries lacking
the `user_data` identity sub-structure are skipped — classification
equals classification of the table with those entries removed.  (The
embedding is a total function, so no exception can escape.) -/
theorem claim7_totality :
    (∀ (q : UserData) (t : List (String × RiskData)),
        countLogicalFields q = 0 →
        classify q t = MatchResult.Unmatched (searchedFields q))
    ∧ (∀ (q : UserData) (t : List (String × RiskData)),
        classify q t
          = classify q (t.filter fun p => p.2.user_data.isSome)) := by
  constructor
  · intro q t h
    unfold classify analyzeMatches
    rw [genCandidates_nil_of_zero q h t]
    rfl
  · intro q t
    unfold classify
    rw [genCandidates_skip_malformed q t]

/-- C7 witness: a query supplying only `doc_number` (zero logical fields)
against a table containing a malformed entry is `Unmatched`, and removing
the malformed entry does not change the classification. -/
theorem claim7_totality_witness :
    classify q7w t7w = MatchResult.Unmatched ["doc_number"]
    ∧ classify q7w t7w
      = classify q7w (t7w.filter fun p => p.2.user_data.isSome) :=
  ⟨claim7_totality.1 q7w t7w (by decide), claim7_totality.2 q7w t7w⟩

/-- C8 (amended): candidate generation matches a logical field name
exactly under these comparisons — email and phone by strict string
equality, country case-insensitively, and the document as a single logical
field requiring both query components and both record components, with the
document *type* compared case-insensitively and the document *number* by
strict equality.  (The original claim's exact-pair equality for the
document fails: the type comparison is case-insensitive.) -/
theorem claim8_field_comparison_semantics (q : UserData)
    (r : RecordUserData) (f : String) :
    f ∈ fieldMatches q r ↔
      (f = "email" ∧ ∃ v, q.email = some v ∧ r.email = some v)
      ∨ (f = "phone" ∧ ∃ v, q.phone = some v ∧ r.phone = some v)
      ∨ (f = "country" ∧ ∃ qc rc, q.country = some qc ∧ r.country = some rc
          ∧ toLowerStr rc = toLowerStr qc)
      ∨ (f = "document" ∧ ∃ qt qn rt rn, q.doc_type = some qt
          ∧ q.doc_number = some qn ∧ r.document_type = some rt
          ∧ r.document_number = some rn ∧ toLowerStr rt = toLowerStr qt
          ∧ rn = qn) := by
  rw [mem_fieldMatches, emailFieldMatch_iff, phoneFieldMatch_iff,
    countryFieldMatch_iff, documentFieldMatch_iff]
  constructor
  · rintro (⟨ha, hb⟩ | ⟨ha, hb⟩ | ⟨ha, hb⟩ | ⟨ha, hb⟩)
    · exact Or.inl ⟨hb, ha⟩
    · exact Or.inr (Or.inl ⟨hb, ha⟩)
    · exact Or.inr (Or.inr (Or.inl ⟨hb, ha⟩))
    · exact Or.inr (Or.inr (Or.inr ⟨hb, ha⟩))
  · rintro (⟨ha, hb⟩ | ⟨ha, hb⟩ | ⟨ha, hb⟩ | ⟨ha, hb⟩)
    · exact Or.inl ⟨hb, ha⟩
    · exact Or.inr (Or.inl ⟨hb, ha⟩)
    · exact Or.inr (Or.inr (Or.inl ⟨hb, ha⟩))
    · exact Or.inr (Or.inr (Or.inr ⟨hb, ha⟩))

/-- C8 counterexample: a document pair whose type differs from the
record's only by letter case still counts as a matched `document` field,
refuting exact-pair equality of type and number. -/
theorem claim8_counterexample :
    fieldMatches q8c r8c = ["document"]
    ∧ q8c.doc_type = some "passport"
    ∧ r8c.document_type = some "Passport"
    ∧ q8c.doc_type ≠ r8c.document_type := by decide

/-- `analyzeSorted` reads its query argument only through
`searchedFields`. -/
theorem analyzeSorted_searched_congr (l : List Candidate)
    (q1 q2 : UserData) (lfc : Nat)
    (h : searchedFields q1 = searchedFields q2) :
    analyzeSorted l q1 lfc = analyzeSorted l q2 lfc := by
  cases l <;> simp only [analyzeSorted, h]

/-- C9: `classify` is a pure function of the query and the table — two
runs on the same inputs give the same result, and the wall-clock
`timestamp` value riding along with a query does not influence the
classification. -/
theorem claim9_determinism (q : UserData) (t : List (String × RiskData))
    (ts1 ts2 : String) :
    classify q t = classify q t
    ∧ classify (setTimestamp q (some ts1)) t
      = classify (setTimestamp q (some ts2)) t := by
  refine ⟨rfl, ?_⟩
  unfold classify analyzeMatches
  rw [show genCandidates (setTimestamp q (some ts1)) t
      = genCandidates (setTimestamp q (some ts2)) t from rfl]
  rw [show countLogicalFields (setTimestamp q (some ts1))
      = countLogicalFields (setTimestamp q (some ts2)) from rfl]
  exact analyzeSorted_searched_congr _ _ _ _ rfl

/-- C10: every generated candidate carries an empty conflicting-fields
list (the source's `fieldConflicts` is never written), so the
conflicting-fields payload of any result — in particular of every
`Conflicted` result — is the empty list. -/
theorem claim10_conflicting_fields_always_empty (q : UserData)
    (t : List (String × RiskData)) :
    ((genCandidates q t).all fun c => c.conflictingFields.isEmpty) = true
    ∧ resultConflictingFields (classify q t) = [] := by
  constructor
  · rw [List.all_eq_true]
    intro c hc
    obtain ⟨-, -, hcf, -, -⟩ := mem_genCandidates hc
    rw [hcf]
    rfl
  · unfold classify analyzeMatches
    cases hsort : sortByStrength (genCandidates q t) with
    | nil => rfl
    | cons s rest =>
      simp only [analyzeSorted]
      by_cases h1 : countLogicalFields q = 1
      · rw [if_pos h1]
        rfl
      · rw [if_neg h1]
        by_cases h2 : 1 < countLogicalFields q
        · rw [if_pos h2]
          unfold validateMultiFieldConsistency
          obtain ⟨-, -, hcf, -, -⟩ := mem_genCandidates (sorted_head_mem hsort)
          by_cases h3 : s.matchedFields.length = countLogicalFields q
          · rw [if_pos h3]
            by_cases h4 : s.riskTags.isEmpty = true
            · rw [if_pos h4]
              rfl
            · rw [if_neg h4]
              rfl
          · rw [if_neg h3]
            by_cases h5 : s.hasConflicts = true
            · rw [if_pos h5]
              simp [resultConflictingFields, hcf]
            · rw [if_neg h5]
              by_cases h6 : detectCrossContamination (s :: rest)
                  (countLogicalFields q) = true
              · rw [if_pos h6]
                rfl
              · rw [if_neg h6]
                rfl
        · rw [if_neg h2]
          rfl

end RiskMatch
